import Mathlib

/-!
Verification of the attachment-consolidation policy and relay composition of
`src/email_relay.py` (class `EmailRelay`).

Modelling conventions (shallow embedding):
* Python strings are `List Char` (Python compares strings codepoint by
  codepoint, and `a in b` is substring containment; both are embedded as
  executable functions below).
* Python `bytes` payloads are `List Nat`.
* Python exceptions are `Option`: a function that can raise returns `none`
  on the raising path, mirroring the `try`/`except` placement of the source.
* Python's `list.sort(key=...)` / `sorted(...)` is a stable sort by the key;
  a stable sort by a total preorder is extensionally unique, so it is
  embedded as `List.insertionSort` over the key order.
-/

namespace EmailRelay

/-- A filename / string value, as a list of codepoints. `[]` plays the role
of both Python `None` and `""` where the source only ever tests truthiness
(`if filename:`), which treats the two identically. -/
abbrev Filename := List Char

/-- Raw payload bytes. -/
abbrev Bytes := List Nat

/-- Python truthiness of a string: nonempty. -/
def pyTruthy (s : Filename) : Bool := !s.isEmpty

/-- Python `s.startswith(pat)`, first argument the pattern. -/
def pyStartsWith : Filename → Filename → Bool
  | [], _ => true
  | _ :: _, [] => false
  | a :: as, b :: bs => a == b && pyStartsWith as bs

/-- Python `pat in s`: `pat` occurs as a contiguous substring of `s`. -/
def pyIn (pat : Filename) : Filename → Bool
  | [] => pyStartsWith pat []
  | b :: bs => pyStartsWith pat (b :: bs) || pyIn pat bs

/-- Python `s.endswith(pat)`, first argument the pattern. -/
def pyEndsWith (pat s : Filename) : Bool :=
  pyStartsWith pat.reverse s.reverse

/-- Key order used by `list.sort(key=lambda i: pdf_filenames[i])`: compare
positions `i`, `j` by the filenames they index (lexicographic codepoint
order, which is exactly Python string `<=`). -/
abbrev keyLe (fns : List Filename) (i j : Nat) : Prop :=
  fns.getD i [] ≤ fns.getD j []

instance (fns : List Filename) : DecidableRel (keyLe fns) :=
  fun _ _ => inferInstanceAs (Decidable (_ ≤ _))

instance (fns : List Filename) : IsTotal Nat (keyLe fns) :=
  ⟨fun _ _ => le_total _ _⟩

instance (fns : List Filename) : IsTrans Nat (keyLe fns) :=
  ⟨fun _ _ _ hab hbc => le_trans hab hbc⟩

/-- Embedding of `EmailRelay.merge_pdfs` (src/email_relay.py lines 129-167):
the merge decision. Inputs are the two parallel lists `pdf_paths` (source
contents, abstract type `α`) and `pdf_filenames`, plus the configured
`invoice_string`. Returns `none` for the `return None` paths (no merge), or
`some (pdf_order, output_filename)`: the ordered sources fed to `PdfMerger`
and the filename given to the merged output (the source returns a path in
`temp_merged_pdfs` ending in exactly `output_filename`). The file I/O of
lines 169-178 is outside the decision and is modelled at the caller. -/
def merge_pdfs [Inhabited α] (invoice_string : Filename) (pdf_paths : List α)
    (pdf_filenames : List Filename) : Option (List α × Filename) :=
  if pdf_paths.length ≤ 1 then
    none
  else
    let invoice_pdf_indices := (List.range pdf_filenames.length).filter
      (fun i => pyTruthy invoice_string && pyIn invoice_string (pdf_filenames.getD i []))
    if pyTruthy invoice_string = true ∧ 1 < invoice_pdf_indices.length then
      none
    else
      match invoice_pdf_indices with
      | invoice_index :: _ =>
        let invoice_pdf := pdf_paths.getD invoice_index default
        let invoice_filename := pdf_filenames.getD invoice_index []
        let other_pdf_indices := List.insertionSort (keyLe pdf_filenames)
          ((List.range pdf_paths.length).filter (fun i => i ≠ invoice_index))
        some (invoice_pdf :: other_pdf_indices.map (fun i => pdf_paths.getD i default),
          invoice_filename)
      | [] =>
        let sorted_indices := List.insertionSort (keyLe pdf_filenames)
          (List.range pdf_filenames.length)
        some (sorted_indices.map (fun i => pdf_paths.getD i default),
          pdf_filenames.getD (sorted_indices.headD 0) [])

/-- The merge decision applied to the positions `0, ..., n-1` themselves:
used to state that the decision depends only on the filenames. -/
def merge_order (invoice_string : Filename) (pdf_filenames : List Filename) :
    Option (List Nat × Filename) :=
  merge_pdfs invoice_string (List.range pdf_filenames.length) pdf_filenames

/-- Filtering the positions of `l` by a predicate on the indexed element and
reading the elements back gives exactly `l.filter p`. -/
theorem filter_range_getD (p : Filename → Bool) :
    ∀ l : List Filename,
      ((List.range l.length).filter (fun i => p (l.getD i []))).map
          (fun i => l.getD i []) = l.filter p
  | [] => by simp
  | a :: t => by
    rw [List.length_cons, List.range_succ_eq_map, List.filter_cons]
    by_cases hp : p a
    · simp only [List.getD_cons_zero, hp, if_pos, List.filter_map, List.map_cons,
        List.map_map, List.filter_cons, Function.comp_def, List.getD_cons_succ]
      rw [filter_range_getD p t]
    · simp only [List.getD_cons_zero, hp, if_neg, Bool.false_eq_true,
        not_false_iff, List.filter_map, List.map_map, Function.comp_def,
        List.getD_cons_succ, List.filter_cons]
      rw [filter_range_getD p t]

/-- Index-level and element-level filters have the same length. -/
theorem filter_range_length (p : Filename → Bool) (l : List Filename) :
    ((List.range l.length).filter (fun i => p (l.getD i []))).length =
      (l.filter p).length := by
  rw [← filter_range_getD p l, List.length_map]

/-- CLAIM C3 — For every candidate list in which more than one candidate's
filename contains the non-empty invoice marker as a substring, the merge
decision returns `NoMerge` (`None`); this is a normal return value of the
total function `merge_pdfs`, not an exception. -/
theorem merge_pdfs_ambiguous_none [Inhabited α] (invoice_string : Filename)
    (pdf_paths : List α) (pdf_filenames : List Filename)
    (hm : pyTruthy invoice_string = true)
    (hmulti : 2 ≤ (pdf_filenames.filter (fun f => pyIn invoice_string f)).length) :
    merge_pdfs invoice_string pdf_paths pdf_filenames = none := by
  by_cases hshort : pdf_paths.length ≤ 1
  · simp [merge_pdfs, hshort]
  · have hflt : ((List.range pdf_filenames.length).filter
        (fun i => pyTruthy invoice_string &&
          pyIn invoice_string (pdf_filenames.getD i []))).length =
        (pdf_filenames.filter (fun f => pyIn invoice_string f)).length := by
      simpa [hm] using
        filter_range_length (fun f => pyIn invoice_string f) pdf_filenames
    simp only [merge_pdfs, hshort, if_false]
    rw [if_pos ⟨hm, by omega⟩]

/-- Witness for C3: Scenario C from the specification. -/
theorem merge_pdfs_ambiguous_none_witness :
    pyTruthy ("invoice".toList) = true ∧
      2 ≤ (([("invoice_1.pdf".toList), ("invoice_2.pdf".toList)] :
        List Filename).filter (fun f => pyIn ("invoice".toList) f)).length ∧
      merge_pdfs ("invoice".toList) ([[1], [2]] : List Bytes)
        [("invoice_1.pdf".toList), ("invoice_2.pdf".toList)] = none :=
  ⟨by decide, by decide,
    merge_pdfs_ambiguous_none ("invoice".toList) _ _ (by decide) (by decide)⟩

/-- CLAIM C4 — For every candidate list of length 0 or 1, the merge decision
returns `NoMerge` (`None`), regardless of the invoice marker. -/
theorem merge_pdfs_short_none [Inhabited α] (invoice_string : Filename)
    (pdf_paths : List α) (pdf_filenames : List Filename)
    (h : pdf_paths.length ≤ 1) :
    merge_pdfs invoice_string pdf_paths pdf_filenames = none := by
  simp [merge_pdfs, h]

/-- Witness for C4 at a concrete one-element input. -/
theorem merge_pdfs_short_none_witness :
    ([[(1 : Nat)]] : List Bytes).length ≤ 1 ∧
      merge_pdfs ("invoice".toList) ([[(1 : Nat)]] : List Bytes)
        [("only.pdf".toList)] = none :=
  ⟨by decide, merge_pdfs_short_none ("invoice".toList) _ _ (by decide)⟩

/-- CLAIM C1 — For every candidate list of length >= 2 in which exactly one
candidate's filename contains the non-empty invoice marker as a substring,
the merge plan orders that invoice candidate first, appends all remaining
candidates sorted ascending by filename in lexicographic codepoint order
(`rest` is a permutation of the other positions, pairwise ascending by
filename), and the output filename is the invoice candidate's filename. -/
theorem merge_pdfs_single_invoice [Inhabited α] (invoice_string : Filename)
    (pdf_paths : List α) (pdf_filenames : List Filename)
    (hlen : pdf_paths.length = pdf_filenames.length)
    (h2 : 2 ≤ pdf_paths.length)
    (hm : pyTruthy invoice_string = true)
    (hone : (pdf_filenames.filter (fun f => pyIn invoice_string f)).length = 1) :
    ∃ (inv : Nat) (rest : List Nat),
      inv < pdf_filenames.length ∧
      pyIn invoice_string (pdf_filenames.getD inv []) = true ∧
      merge_pdfs invoice_string pdf_paths pdf_filenames =
        some (pdf_paths.getD inv default ::
            rest.map (fun i => pdf_paths.getD i default),
          pdf_filenames.getD inv []) ∧
      rest.Perm ((List.range pdf_filenames.length).filter (fun i => i ≠ inv)) ∧
      rest.Pairwise (keyLe pdf_filenames) := by
  have hshort : ¬ (pdf_paths.length ≤ 1) := by omega
  have hq : (fun i => pyTruthy invoice_string &&
      pyIn invoice_string (pdf_filenames.getD i [])) =
      (fun i => pyIn invoice_string (pdf_filenames.getD i [])) := by
    funext i; rw [hm, Bool.true_and]
  have hlen1 : ((List.range pdf_filenames.length).filter
      (fun i => pyIn invoice_string (pdf_filenames.getD i []))).length = 1 := by
    rw [filter_range_length]; exact hone
  obtain ⟨inv, hinv⟩ := List.length_eq_one.mp hlen1
  have hmem : inv ∈ (List.range pdf_filenames.length).filter
      (fun i => pyIn invoice_string (pdf_filenames.getD i [])) := by
    rw [hinv]; exact List.mem_singleton_self inv
  obtain ⟨hr, hpy⟩ := List.mem_filter.mp hmem
  have hlt : inv < pdf_filenames.length := List.mem_range.mp hr
  refine ⟨inv, List.insertionSort (keyLe pdf_filenames)
      ((List.range pdf_paths.length).filter (fun i => i ≠ inv)),
    hlt, hpy, ?_, ?_, ?_⟩
  · simp only [merge_pdfs, hq, hinv]
    rw [if_neg hshort, if_neg (by simp)]
  · rw [← hlen]
    exact List.perm_insertionSort _ _
  · exact List.sorted_insertionSort _ _

/-- Witness for C1: Scenario B from the specification. -/
theorem merge_pdfs_single_invoice_witness :
    ([[1], [2], [3]] : List Bytes).length =
        ([("invoice_123.pdf".toList), ("receipt.pdf".toList),
          ("note.pdf".toList)] : List Filename).length ∧
      2 ≤ ([[1], [2], [3]] : List Bytes).length ∧
      pyTruthy ("invoice".toList) = true ∧
      (([("invoice_123.pdf".toList), ("receipt.pdf".toList),
          ("note.pdf".toList)] : List Filename).filter
        (fun f => pyIn ("invoice".toList) f)).length = 1 ∧
      (∃ (inv : Nat) (rest : List Nat),
        inv < ([("invoice_123.pdf".toList), ("receipt.pdf".toList),
          ("note.pdf".toList)] : List Filename).length ∧
        pyIn ("invoice".toList) (([("invoice_123.pdf".toList),
          ("receipt.pdf".toList), ("note.pdf".toList)] :
            List Filename).getD inv []) = true ∧
        merge_pdfs ("invoice".toList) ([[1], [2], [3]] : List Bytes)
            [("invoice_123.pdf".toList), ("receipt.pdf".toList),
              ("note.pdf".toList)] =
          some (([[1], [2], [3]] : List Bytes).getD inv default ::
              rest.map (fun i => ([[1], [2], [3]] : List Bytes).getD i default),
            ([("invoice_123.pdf".toList), ("receipt.pdf".toList),
              ("note.pdf".toList)] : List Filename).getD inv []) ∧
        rest.Perm ((List.range ([("invoice_123.pdf".toList),
            ("receipt.pdf".toList), ("note.pdf".toList)] :
              List Filename).length).filter (fun i => i ≠ inv)) ∧
        rest.Pairwise (keyLe [("invoice_123.pdf".toList),
          ("receipt.pdf".toList), ("note.pdf".toList)])) :=
  ⟨by decide, by decide, by decide, by decide,
    merge_pdfs_single_invoice ("invoice".toList) _ _ (by decide) (by decide)
      (by decide) (by decide)⟩

/-- CLAIM C2 — For every candidate list of length >= 2 in which no
candidate's filename contains the invoice marker, or the invoice marker is
the empty string, the merge plan is all candidates sorted ascending
lexicographically by filename, and the output filename is the
lexicographically smallest candidate filename. -/
theorem merge_pdfs_no_invoice_sorted [Inhabited α] (invoice_string : Filename)
    (pdf_paths : List α) (pdf_filenames : List Filename)
    (hlen : pdf_paths.length = pdf_filenames.length)
    (h2 : 2 ≤ pdf_paths.length)
    (hnone : pyTruthy invoice_string = false ∨
      ∀ f ∈ pdf_filenames, pyIn invoice_string f = false) :
    ∃ is : List Nat,
      merge_pdfs invoice_string pdf_paths pdf_filenames =
        some (is.map (fun i => pdf_paths.getD i default),
          pdf_filenames.getD (is.headD 0) []) ∧
      is.Perm (List.range pdf_filenames.length) ∧
      is.Pairwise (keyLe pdf_filenames) ∧
      pdf_filenames.getD (is.headD 0) [] ∈ pdf_filenames ∧
      ∀ f ∈ pdf_filenames, pdf_filenames.getD (is.headD 0) [] ≤ f := by
  have hn2 : 2 ≤ pdf_filenames.length := hlen ▸ h2
  have hshort : ¬ (pdf_paths.length ≤ 1) := by omega
  have hfe : (List.range pdf_filenames.length).filter
      (fun i => pyTruthy invoice_string &&
        pyIn invoice_string (pdf_filenames.getD i [])) = [] := by
    rw [List.filter_eq_nil_iff]
    intro i hi
    rcases hnone with ht | hnm
    · simp [ht]
    · have hlt : i < pdf_filenames.length := List.mem_range.mp hi
      have hmem : pdf_filenames.getD i [] ∈ pdf_filenames := by
        rw [List.getD_eq_getElem _ _ hlt]; exact List.getElem_mem hlt
      intro hco
      rw [hnm _ hmem, Bool.and_false] at hco
      exact absurd hco Bool.false_ne_true
  set is := List.insertionSort (keyLe pdf_filenames)
    (List.range pdf_filenames.length) with his
  have hperm : is.Perm (List.range pdf_filenames.length) :=
    List.perm_insertionSort _ _
  have hsor : is.Pairwise (keyLe pdf_filenames) :=
    List.sorted_insertionSort _ _
  have hne : is ≠ [] := by
    intro h0
    have hle := hperm.length_eq
    rw [h0, List.length_range] at hle
    simp at hle
    omega
  obtain ⟨h0, t, hht⟩ := List.exists_cons_of_ne_nil hne
  have hh0 : h0 ∈ is := by rw [hht]; exact List.mem_cons_self _ _
  have hhlt : h0 < pdf_filenames.length :=
    List.mem_range.mp (hperm.mem_iff.mp hh0)
  have hhd : is.headD 0 = h0 := by rw [hht]; rfl
  refine ⟨is, ?_, hperm, hsor, ?_, ?_⟩
  · simp only [merge_pdfs, hfe]
    rw [if_neg hshort, if_neg (by simp)]
  · rw [hhd, List.getD_eq_getElem _ _ hhlt]
    exact List.getElem_mem hhlt
  · intro f hf
    obtain ⟨j, hj, hjf⟩ := List.getElem_of_mem hf
    have hjis : j ∈ is := hperm.mem_iff.mpr (List.mem_range.mpr hj)
    rw [hht] at hjis
    have hkey : keyLe pdf_filenames h0 j := by
      rcases List.mem_cons.mp hjis with hjh | hjt
      · rw [hjh]
      · exact (List.pairwise_cons.mp (hht ▸ hsor)).1 j hjt
    rw [hhd]
    calc pdf_filenames.getD h0 [] ≤ pdf_filenames.getD j [] := hkey
      _ = f := by rw [List.getD_eq_getElem _ _ hj]; exact hjf

/-- Witness for C2: Scenario A from the specification (empty marker). -/
theorem merge_pdfs_no_invoice_sorted_witness :
    ([[1], [2]] : List Bytes).length =
        ([("b.pdf".toList), ("a.pdf".toList)] : List Filename).length ∧
      2 ≤ ([[1], [2]] : List Bytes).length ∧
      (pyTruthy ([] : Filename) = false ∨
        ∀ f ∈ ([("b.pdf".toList), ("a.pdf".toList)] : List Filename),
          pyIn ([] : Filename) f = false) ∧
      (∃ is : List Nat,
        merge_pdfs ([] : Filename) ([[1], [2]] : List Bytes)
            [("b.pdf".toList), ("a.pdf".toList)] =
          some (is.map (fun i => ([[1], [2]] : List Bytes).getD i default),
            ([("b.pdf".toList), ("a.pdf".toList)] :
              List Filename).getD (is.headD 0) []) ∧
        is.Perm (List.range ([("b.pdf".toList), ("a.pdf".toList)] :
          List Filename).length) ∧
        is.Pairwise (keyLe [("b.pdf".toList), ("a.pdf".toList)]) ∧
        ([("b.pdf".toList), ("a.pdf".toList)] :
            List Filename).getD (is.headD 0) [] ∈
          ([("b.pdf".toList), ("a.pdf".toList)] : List Filename) ∧
        ∀ f ∈ ([("b.pdf".toList), ("a.pdf".toList)] : List Filename),
          ([("b.pdf".toList), ("a.pdf".toList)] :
            List Filename).getD (is.headD 0) [] ≤ f) :=
  ⟨by decide, by decide, Or.inl (by decide),
    merge_pdfs_no_invoice_sorted ([] : Filename) _ _ (by decide) (by decide)
      (Or.inl (by decide))⟩

/-- Reading position `i < n` out of `List.range n` gives `i` back. -/
theorem getD_range {n i : Nat} (d : Nat) (h : i < n) :
    (List.range n).getD i d = i := by
  have h' : i < (List.range n).length := by rwa [List.length_range]
  rw [List.getD_eq_getElem _ _ h', List.getElem_range]

/-- CLAIM C10 — The merge ordering decision depends only on the filename
list and the configured invoice marker, not on the PDF byte contents: the
result of `merge_pdfs` on any contents list is obtained by mapping the
position ordering `merge_order` (computed from the filenames and marker
alone) over the contents; in particular, two calls with identical filename
sequences and marker but different contents select identical positions and
the same output filename, and the decision is a pure function of its
inputs (deterministic across runs). -/
theorem merge_pdfs_content_independent [Inhabited α] (invoice_string : Filename)
    (pdf_paths : List α) (pdf_filenames : List Filename)
    (hlen : pdf_paths.length = pdf_filenames.length) :
    merge_pdfs invoice_string pdf_paths pdf_filenames =
      (merge_order invoice_string pdf_filenames).map
        (fun q => (q.1.map (fun i => pdf_paths.getD i default), q.2)) := by
  simp only [merge_order, merge_pdfs, List.length_range, hlen]
  by_cases hs : pdf_filenames.length ≤ 1
  · rw [if_pos hs, if_pos hs]
    rfl
  · rw [if_neg hs, if_neg hs]
    by_cases hc : pyTruthy invoice_string = true ∧
      1 < ((List.range pdf_filenames.length).filter
        (fun i => pyTruthy invoice_string &&
          pyIn invoice_string (pdf_filenames.getD i []))).length
    · rw [if_pos hc, if_pos hc]
      rfl
    · rw [if_neg hc, if_neg hc]
      cases hfl : (List.range pdf_filenames.length).filter
          (fun i => pyTruthy invoice_string &&
            pyIn invoice_string (pdf_filenames.getD i [])) with
      | nil =>
        have hbound : ∀ i ∈ List.insertionSort (keyLe pdf_filenames)
            (List.range pdf_filenames.length), i < pdf_filenames.length := by
          intro i hi
          exact List.mem_range.mp ((List.perm_insertionSort _ _).mem_iff.mp hi)
        have hmap : (List.insertionSort (keyLe pdf_filenames)
            (List.range pdf_filenames.length)).map
              (fun i => (List.range pdf_filenames.length).getD i default) =
            List.insertionSort (keyLe pdf_filenames)
              (List.range pdf_filenames.length) := by
          rw [List.map_congr_left (fun i hi => getD_range _ (hbound i hi))]
          exact List.map_id _
        simp only [Option.map_some']
        rw [hmap]
      | cons inv tl =>
        have hinvmem : inv ∈ (List.range pdf_filenames.length).filter
            (fun i => pyTruthy invoice_string &&
              pyIn invoice_string (pdf_filenames.getD i [])) := by
          rw [hfl]; exact List.mem_cons_self _ _
        have hinvlt : inv < pdf_filenames.length :=
          List.mem_range.mp (List.mem_filter.mp hinvmem).1
        have hbound : ∀ i ∈ List.insertionSort (keyLe pdf_filenames)
            ((List.range pdf_filenames.length).filter (fun i => i ≠ inv)),
            i < pdf_filenames.length := by
          intro i hi
          have hmem := (List.perm_insertionSort _ _).mem_iff.mp hi
          exact List.mem_range.mp (List.mem_filter.mp hmem).1
        have hmap : (List.insertionSort (keyLe pdf_filenames)
            ((List.range pdf_filenames.length).filter (fun i => i ≠ inv))).map
              (fun i => (List.range pdf_filenames.length).getD i default) =
            List.insertionSort (keyLe pdf_filenames)
              ((List.range pdf_filenames.length).filter (fun i => i ≠ inv)) := by
          rw [List.map_congr_left (fun i hi => getD_range _ (hbound i hi))]
          exact List.map_id _
        simp only [Option.map_some', List.map_cons]
        rw [hmap, getD_range default hinvlt]

/-- Witness for C10: the decision at two different contents lists factors
through the same position ordering. -/
theorem merge_pdfs_content_independent_witness :
    ([[9], [8]] : List Bytes).length =
        ([("b.pdf".toList), ("a.pdf".toList)] : List Filename).length ∧
      merge_pdfs ("invoice".toList) ([[9], [8]] : List Bytes)
          [("b.pdf".toList), ("a.pdf".toList)] =
        (merge_order ("invoice".toList)
            [("b.pdf".toList), ("a.pdf".toList)]).map
          (fun q => (q.1.map (fun i => ([[9], [8]] : List Bytes).getD i default),
            q.2)) :=
  ⟨by decide,
    merge_pdfs_content_independent ("invoice".toList) _ _ (by decide)⟩

/-- One node of the MIME tree in `message.walk()` order (depth-first, as
the Python `email` library yields it): content type split into major and
minor type, presence of a `Content-Disposition` header, declared filename
(`[]` models both a missing filename and an empty one — the source only
ever tests truthiness, which identifies the two), and the decoded payload,
where `none` models `get_payload(decode=True)` raising. -/
structure Part where
  maintype : List Char
  subtype : List Char
  hasDisposition : Bool
  filename : Filename
  payload : Option Bytes
deriving DecidableEq

/-- Candidate test of the extraction loop (src/email_relay.py lines
217-224): not `multipart`, carries a disposition header, and the declared
filename, lowercased, ends in `.pdf`. -/
def isPdfCandidate (p : Part) : Bool :=
  !(p.maintype == ("multipart".toList)) && p.hasDisposition &&
    (pyTruthy p.filename &&
      pyEndsWith (".pdf".toList) (p.filename.map Char.toLower))

/-- Content-type test of the materialization and fallback-attachment loops
(lines 262 and 292): `application/pdf` parts. -/
def isAppPdf (p : Part) : Bool :=
  p.maintype == ("application".toList) && p.subtype == ("pdf".toList)

/-- Extraction loop of `relay_email` (lines 216-251): collect the decoded
payloads of qualifying parts in walk order. A failing decode raises, and no
handler exists inside the loop, so the exception propagates to the
message-level `except` at line 352 (`none`). -/
def extract_pdf_attachments : List Part → Option (List Bytes)
  | [] => some []
  | p :: rest =>
    if isPdfCandidate p then
      match p.payload with
      | none => none
      | some b => (extract_pdf_attachments rest).map (fun l => b :: l)
    else extract_pdf_attachments rest

/-- State of the temp-file materialization loop (lines 260-270). Temp files
are named by consecutive naturals in creation order. `created` holds every
file `NamedTemporaryFile(delete=False)` put on disk; `written` holds those
whose payload write succeeded and whose path was recorded in `pdf_paths`;
`sources` pairs each recorded content with its original filename; `raised`
is set when a payload decode raises inside the `with` block (that file
stays on disk but is never recorded, and the loop aborts). -/
structure MatState where
  created : List Nat
  written : List Nat
  sources : List (Bytes × Filename)
  raised : Bool
deriving DecidableEq

/-- The materialization loop itself (lines 260-270), `ctr` the next fresh
temp-file name. -/
def materialize_loop : List Part → Nat → MatState
  | [], _ => ⟨[], [], [], false⟩
  | p :: rest, ctr =>
    if isAppPdf p && pyTruthy p.filename then
      match p.payload with
      | none => ⟨[ctr], [], [], true⟩
      | some b =>
        let s := materialize_loop rest (ctr + 1)
        ⟨ctr :: s.created, ctr :: s.written, (b, p.filename) :: s.sources,
          s.raised⟩
    else materialize_loop rest ctr

/-- The `(path, filename)` sources handed to `merge_pdfs` at line 272;
`none` when a decode raised during materialization. -/
def materialize_sources (parts : List Part) :
    Option (List (Bytes × Filename)) :=
  let s := materialize_loop parts 0
  if s.raised then none else some s.sources

/-- Python `os.path.basename`. -/
def pyBasename (f : Filename) : Filename :=
  (f.reverse.takeWhile (fun c => c != '/')).reverse

/-- Merge execution step of `relay_email` (lines 254-277): attempted only
when more than one candidate payload was extracted. `libFail` models
`PdfMerger` raising on corrupt input, which `merge_pdfs` catches at lines
180-182 and turns into `None`. The outer `none` is a decode exception
escaping the `try`/`finally` (which has no `except`); the inner option is
the merged output: the basename of the written path and the concatenated
source bytes. -/
def merged_result (invoice_string : Filename) (libFail : Bool)
    (parts : List Part) (pdf_attachments : List Bytes) :
    Option (Option (Filename × Bytes)) :=
  if 1 < pdf_attachments.length then
    (materialize_sources parts).map (fun srcs =>
      if libFail then none
      else (merge_pdfs invoice_string (srcs.map Prod.fst)
          (srcs.map Prod.snd)).map
        (fun q => (pyBasename q.2, q.1.flatten)))
  else some none

/-- Default literal used at line 293 when an `application/pdf` part has no
truthy filename. -/
def default_attachment_name : Filename := "attachment.pdf".toList

/-- Fallback attachment loop (lines 290-296): every `application/pdf` part
is attached under its declared filename or the default literal; a failing
decode raises out to the message-level handler. -/
def individual_attachments : List Part → Option (List (Filename × Bytes))
  | [] => some []
  | p :: rest =>
    if isAppPdf p then
      match p.payload with
      | none => none
      | some b =>
        (individual_attachments rest).map (fun l =>
          ((if pyTruthy p.filename then p.filename
            else default_attachment_name), b) :: l)
    else individual_attachments rest

/-- Model of `.decode('utf-8', errors='ignore')` applied to successfully
decoded payload bytes: a total function from bytes to text. -/
def bytesToText (b : Bytes) : List Char := b.map Char.ofNat

/-- Body scan of `relay_email` (lines 298-308), threading the `body` and
`body_type` variables. The first `text/plain` part ends the scan — without
resetting `body_type`; a `text/html` part is used only while `body` is
still empty and sets `body_type` to `html`. -/
def body_scan : List Part → List Char → List Char →
    Option (List Char × List Char)
  | [], body, bt => some (body, bt)
  | p :: rest, body, bt =>
    if p.maintype == ("text".toList) && p.subtype == ("plain".toList) then
      match p.payload with
      | none => none
      | some b => some (bytesToText b, bt)
    else if p.maintype == ("text".toList) &&
        p.subtype == ("html".toList) && body.isEmpty then
      match p.payload with
      | none => none
      | some b => body_scan rest (bytesToText b) ("html".toList)
    else body_scan rest body bt

/-- The body scan started from its initial state (`body = ''`,
`body_type = 'plain'`). -/
def extract_body (parts : List Part) : Option (List Char × List Char) :=
  body_scan parts [] ("plain".toList)

/-- The fields of the composed outbound message the claims quantify over:
the attachment list (the `MIMEApplication` parts attached at lines 288 and
296) and the optional body part (attached at lines 311-312 only when
`body` is nonempty, with its `MIMEText` subtype). The fixed headers are
omitted. -/
structure OutboundMessage where
  attachments : List (Filename × Bytes)
  body : Option (List Char × List Char)
deriving DecidableEq

/-- Embedding of the per-message composition in `relay_email`
(src/email_relay.py lines 216-316): extraction, optional merge, attachment
selection, body selection, in source order. `none` models the message-level
`except` at lines 352-354 being reached: the message is skipped and never
relayed. Simulation-mode file dumps and the SMTP submission are outside
the composed message and not modelled. -/
def relay_email (invoice_string : Filename) (libFail : Bool)
    (parts : List Part) : Option OutboundMessage :=
  (extract_pdf_attachments parts).bind (fun pdf_attachments =>
    (merged_result invoice_string libFail parts pdf_attachments).bind
      (fun merged =>
        (if pdf_attachments.isEmpty then some []
          else
            match merged with
            | some mb => some [mb]
            | none => individual_attachments parts).bind
          (fun attachments =>
            (extract_body parts).bind (fun b =>
              some ⟨attachments, if b.1.isEmpty then none else some b⟩))))

/-- The merge step as seen from a whole message: `some (some _)` when a
merged PDF was produced, `some none` when no merge happened or the merge
failed, `none` when a decode exception aborted the message. -/
def merge_outcome (invoice_string : Filename) (libFail : Bool)
    (parts : List Part) : Option (Option (Filename × Bytes)) :=
  (extract_pdf_attachments parts).bind
    (fun l => merged_result invoice_string libFail parts l)

/-- Python `os.unlink` of each recorded path, guarded by `os.path.exists`
(lines 274-277), over a file system modelled as the list of existing temp
files. -/
def unlink_all (paths fs : List Nat) : List Nat :=
  paths.foldl (fun acc q => if q ∈ acc then acc.erase q else acc) fs

/-- The whole merge-execution block (lines 258-277): materialize the
sources as temp files, run the merge (the library call catches its own
errors; `libFail` models it raising), then the `finally` deletes every
recorded temp path whether or not the merge succeeded and whether or not
an exception is propagating. Returns the merge result, the recorded temp
paths, and the temp files left on disk. -/
def merge_block (invoice_string : Filename) (libFail : Bool)
    (parts : List Part) :
    Option (Option (Filename × Bytes)) × List Nat × List Nat :=
  let s := materialize_loop parts 0
  let res : Option (Option (Filename × Bytes)) :=
    if s.raised then none
    else some (if libFail then none
      else (merge_pdfs invoice_string (s.sources.map Prod.fst)
          (s.sources.map Prod.snd)).map (fun q => (pyBasename q.2, q.1.flatten)))
  (res, s.written, unlink_all s.written s.created)

theorem unlink_all_cons (a : Nat) (paths fs : List Nat) :
    unlink_all (a :: paths) fs = unlink_all paths (fs.erase a) := by
  unfold unlink_all
  rw [List.foldl_cons]
  by_cases h : a ∈ fs
  · rw [if_pos h]
  · rw [if_neg h, List.erase_of_not_mem h]

theorem unlink_all_subset : ∀ (paths fs : List Nat), unlink_all paths fs ⊆ fs
  | [], fs => by
    intro x hx
    simpa [unlink_all] using hx
  | a :: paths, fs => by
    rw [unlink_all_cons]
    exact (unlink_all_subset paths (fs.erase a)).trans (List.erase_subset _ _)

theorem not_mem_unlink_all :
    ∀ (paths fs : List Nat), fs.Nodup → ∀ q ∈ paths, q ∉ unlink_all paths fs
  | [], _, _, q, hq => absurd hq (List.not_mem_nil q)
  | a :: paths, fs, hnd, q, hq => by
    rw [unlink_all_cons]
    rcases List.mem_cons.mp hq with rfl | hq'
    · intro hmem
      have : q ∈ fs.erase q := unlink_all_subset paths _ hmem
      exact ((hnd.mem_erase_iff.mp this).1 rfl).elim
    · exact not_mem_unlink_all paths (fs.erase a) (hnd.erase a) q hq'

theorem materialize_loop_created_bounds :
    ∀ (parts : List Part) (ctr : Nat),
      (materialize_loop parts ctr).created.Pairwise (· < ·) ∧
        ∀ x ∈ (materialize_loop parts ctr).created, ctr ≤ x
  | [], ctr => by simp [materialize_loop]
  | p :: rest, ctr => by
    unfold materialize_loop
    by_cases hp : (isAppPdf p && pyTruthy p.filename) = true
    · rw [if_pos hp]
      cases hpay : p.payload with
      | none => simp
      | some b =>
        obtain ⟨hpw, hbd⟩ := materialize_loop_created_bounds rest (ctr + 1)
        refine ⟨List.pairwise_cons.mpr ⟨fun x hx => ?_, hpw⟩, ?_⟩
        · exact lt_of_lt_of_le (Nat.lt_succ_self ctr) (hbd x hx)
        · intro x hx
          rcases List.mem_cons.mp hx with rfl | hx'
          · exact le_refl x
          · exact le_trans (Nat.le_succ ctr) (hbd x hx')
    · rw [if_neg hp]
      exact materialize_loop_created_bounds rest ctr

theorem materialize_loop_written_sub_created :
    ∀ (parts : List Part) (ctr : Nat),
      (materialize_loop parts ctr).written ⊆ (materialize_loop parts ctr).created
  | [], ctr => by simp [materialize_loop]
  | p :: rest, ctr => by
    unfold materialize_loop
    by_cases hp : (isAppPdf p && pyTruthy p.filename) = true
    · rw [if_pos hp]
      cases hpay : p.payload with
      | none => simp
      | some b =>
        intro x hx
        rcases List.mem_cons.mp hx with rfl | hx'
        · exact List.mem_cons_self _ _
        · exact List.mem_cons_of_mem _
            (materialize_loop_written_sub_created rest (ctr + 1) hx')
    · rw [if_neg hp]
      exact materialize_loop_written_sub_created rest ctr

/-- CLAIM C9 — For every merge attempt (any message, any invoice marker,
whether or not the PDF library fails), every temporary PDF source file that
was materialized (successfully written and recorded in `pdf_paths`) has
been deleted from disk by the `finally` block before control returns to the
orchestrator, on the success path and on every failure path. -/
theorem merge_block_temp_sources_deleted (invoice_string : Filename)
    (libFail : Bool) (parts : List Part) (q : Nat)
    (hq : q ∈ (merge_block invoice_string libFail parts).2.1) :
    q ∉ (merge_block invoice_string libFail parts).2.2 := by
  have hnd : (materialize_loop parts 0).created.Nodup :=
    (materialize_loop_created_bounds parts 0).1.imp Nat.ne_of_lt
  exact not_mem_unlink_all _ _ hnd q hq

/-- Witness for C9: a concrete three-part message (one source fails to
decode mid-materialization); the recorded temp file 0 is deleted. -/
theorem merge_block_temp_sources_deleted_witness :
    0 ∈ (merge_block ([] : Filename) false
        [⟨("application".toList), ("pdf".toList), true, ("a.pdf".toList),
          some [1]⟩,
         ⟨("application".toList), ("pdf".toList), true, ("x.pdf".toList),
          none⟩]).2.1 ∧
      0 ∉ (merge_block ([] : Filename) false
        [⟨("application".toList), ("pdf".toList), true, ("a.pdf".toList),
          some [1]⟩,
         ⟨("application".toList), ("pdf".toList), true, ("x.pdf".toList),
          none⟩]).2.2 :=
  ⟨by decide, merge_block_temp_sources_deleted ([] : Filename) false _ 0
    (by decide)⟩

theorem extract_pdf_attachments_total :
    ∀ parts : List Part, (∀ p ∈ parts, p.payload.isSome) →
      extract_pdf_attachments parts =
        some ((parts.filter isPdfCandidate).map (fun p => p.payload.getD []))
  | [], _ => rfl
  | p :: rest, hAll => by
    obtain ⟨b, hb⟩ := Option.isSome_iff_exists.mp
      (hAll p (List.mem_cons_self _ _))
    have hrest := extract_pdf_attachments_total rest
      (fun q hq => hAll q (List.mem_cons_of_mem _ hq))
    unfold extract_pdf_attachments
    by_cases hc : isPdfCandidate p = true
    · rw [if_pos hc, hb, hrest]
      simp [List.filter_cons, hc, hb]
    · rw [if_neg hc, hrest]
      simp [List.filter_cons, hc]

theorem materialize_loop_total :
    ∀ (parts : List Part) (ctr : Nat), (∀ p ∈ parts, p.payload.isSome) →
      (materialize_loop parts ctr).raised = false ∧
      (materialize_loop parts ctr).sources =
        (parts.filter (fun p => isAppPdf p && pyTruthy p.filename)).map
          (fun p => (p.payload.getD [], p.filename))
  | [], _, _ => by simp [materialize_loop]
  | p :: rest, ctr, hAll => by
    obtain ⟨b, hb⟩ := Option.isSome_iff_exists.mp
      (hAll p (List.mem_cons_self _ _))
    obtain ⟨hr, hs⟩ := materialize_loop_total rest (ctr + 1)
      (fun q hq => hAll q (List.mem_cons_of_mem _ hq))
    obtain ⟨hr', hs'⟩ := materialize_loop_total rest ctr
      (fun q hq => hAll q (List.mem_cons_of_mem _ hq))
    unfold materialize_loop
    by_cases hp : (isAppPdf p && pyTruthy p.filename) = true
    · rw [if_pos hp, hb]
      refine ⟨hr, ?_⟩
      simp only [List.filter_cons, hp, if_pos, List.map_cons, hb]
      rw [hs]
      simp [hb]
    · rw [if_neg hp]
      refine ⟨hr', ?_⟩
      simp only [List.filter_cons, hp]
      rw [if_neg (by simp [hp]), hs']

theorem materialize_sources_total (parts : List Part)
    (hAll : ∀ p ∈ parts, p.payload.isSome) :
    materialize_sources parts =
      some ((parts.filter (fun p => isAppPdf p && pyTruthy p.filename)).map
        (fun p => (p.payload.getD [], p.filename))) := by
  obtain ⟨h1, h2⟩ := materialize_loop_total parts 0 hAll
  simp [materialize_sources, h1, h2]

theorem individual_attachments_total :
    ∀ parts : List Part, (∀ p ∈ parts, p.payload.isSome) →
      individual_attachments parts =
        some ((parts.filter isAppPdf).map (fun p =>
          ((if pyTruthy p.filename then p.filename
            else default_attachment_name), p.payload.getD [])))
  | [], _ => rfl
  | p :: rest, hAll => by
    obtain ⟨b, hb⟩ := Option.isSome_iff_exists.mp
      (hAll p (List.mem_cons_self _ _))
    have hrest := individual_attachments_total rest
      (fun q hq => hAll q (List.mem_cons_of_mem _ hq))
    unfold individual_attachments
    by_cases hc : isAppPdf p = true
    · rw [if_pos hc, hb, hrest]
      simp [List.filter_cons, hc, hb]
    · rw [if_neg hc, hrest]
      simp [List.filter_cons, hc]

theorem body_scan_total :
    ∀ (parts : List Part) (body bt : List Char),
      (∀ p ∈ parts, p.payload.isSome) → (body_scan parts body bt).isSome
  | [], _, _, _ => rfl
  | p :: rest, body, bt, hAll => by
    obtain ⟨b, hb⟩ := Option.isSome_iff_exists.mp
      (hAll p (List.mem_cons_self _ _))
    have hrest := fun bo bt' => body_scan_total rest bo bt'
      (fun q hq => hAll q (List.mem_cons_of_mem _ hq))
    unfold body_scan
    by_cases h1 : (p.maintype == ("text".toList) &&
        p.subtype == ("plain".toList)) = true
    · rw [if_pos h1, hb]
      rfl
    · rw [if_neg h1]
      by_cases h2 : (p.maintype == ("text".toList) &&
          p.subtype == ("html".toList) && body.isEmpty) = true
      · rw [if_pos h2, hb]
        exact hrest _ _
      · rw [if_neg h2]
        exact hrest _ _

/-- Example part: a well-formed `application/pdf` attachment `a.pdf`. -/
def examplePdfA : Part :=
  ⟨"application".toList, "pdf".toList, true, "a.pdf".toList, some [1]⟩

/-- Example part: an `application/octet-stream` attachment with the `.pdf`
filename `b.pdf` — a PdfCandidate for the extractor, invisible to the
`application/pdf` loops. -/
def exampleOctetB : Part :=
  ⟨"application".toList, "octet-stream".toList, true, "b.pdf".toList,
    some [2]⟩

/-- Example part: a well-formed `application/pdf` attachment `c.pdf`. -/
def examplePdfC : Part :=
  ⟨"application".toList, "pdf".toList, true, "c.pdf".toList, some [3]⟩

/-- Example part: an `application/pdf` attachment whose payload decode
raises. -/
def examplePdfFail : Part :=
  ⟨"application".toList, "pdf".toList, true, "f.pdf".toList, none⟩

/-- Example part: a `text/html` body part with content `hi`. -/
def exampleHtml : Part :=
  ⟨"text".toList, "html".toList, false, [], some [104, 105]⟩

/-- Example part: a `text/plain` body part with content `hello`. -/
def examplePlain : Part :=
  ⟨"text".toList, "plain".toList, false, [], some [104, 101, 108, 108, 111]⟩

/-- CLAIM C5 (amended) — under no decode failures, the composed message has
exactly 1 attachment when a merge occurred; otherwise it has 0 attachments
when no PdfCandidate was extracted, and otherwise as many attachments as
there are parts of content type `application/pdf` — which is not in general
the number of PdfCandidates extracted, because the attachment loop (lines
291-296) keys on content type while the extractor (lines 217-224) keys on
disposition and filename. -/
theorem relay_attachment_count (invoice_string : Filename) (libFail : Bool)
    (parts : List Part) (hAll : ∀ p ∈ parts, p.payload.isSome) :
    ∃ out, relay_email invoice_string libFail parts = some out ∧
      out.attachments.length =
        (if (merge_outcome invoice_string libFail parts).join.isSome then 1
         else if (parts.filter isPdfCandidate).isEmpty then 0
         else (parts.filter isAppPdf).length) := by
  have hext := extract_pdf_attachments_total parts hAll
  set l := (parts.filter isPdfCandidate).map (fun p => p.payload.getD []) with hl
  have hmat := materialize_sources_total parts hAll
  have hind := individual_attachments_total parts hAll
  obtain ⟨bb, hbb⟩ := Option.isSome_iff_exists.mp
    (body_scan_total parts [] ("plain".toList) hAll)
  obtain ⟨m, hm⟩ : ∃ m, merged_result invoice_string libFail parts l = some m := by
    unfold merged_result
    by_cases h : 1 < l.length
    · rw [if_pos h, hmat]
      exact ⟨_, rfl⟩
    · rw [if_neg h]
      exact ⟨none, rfl⟩
  have hmo : merge_outcome invoice_string libFail parts = some m := by
    unfold merge_outcome
    rw [hext, Option.some_bind, hm]
  have hm0 : l.isEmpty = true → m = none := by
    intro hle
    have h0 : l.length = 0 := by
      rw [List.isEmpty_iff.mp hle]; rfl
    have hmr : merged_result invoice_string libFail parts l = some none := by
      unfold merged_result
      rw [if_neg (by omega)]
    rw [hmr] at hm
    exact (Option.some_inj.mp hm).symm
  by_cases hle : l.isEmpty = true
  · refine ⟨⟨[], if bb.1.isEmpty then none else some bb⟩, ?_, ?_⟩
    · rw [relay_email, hext, Option.some_bind, hm, Option.some_bind, if_pos hle,
        Option.some_bind, extract_body, hbb, Option.some_bind]
    · have hfe : (parts.filter isPdfCandidate).isEmpty = true := by
        rw [List.isEmpty_iff] at hle ⊢
        exact List.map_eq_nil_iff.mp (hl ▸ hle)
      rw [hmo, hm0 hle]
      simp [hfe]
  · cases m with
    | some mb =>
      refine ⟨⟨[mb], if bb.1.isEmpty then none else some bb⟩, ?_, ?_⟩
      · rw [relay_email, hext, Option.some_bind, hm, Option.some_bind,
          if_neg hle, Option.some_bind, extract_body, hbb, Option.some_bind]
      · rw [hmo]
        simp
    | none =>
      refine ⟨⟨(parts.filter isAppPdf).map (fun p =>
          ((if pyTruthy p.filename then p.filename
            else default_attachment_name), p.payload.getD [])),
          if bb.1.isEmpty then none else some bb⟩, ?_, ?_⟩
      · rw [relay_email, hext, Option.some_bind, hm, Option.some_bind,
          if_neg hle, hind, Option.some_bind, extract_body, hbb,
          Option.some_bind]
      · have hfe : (parts.filter isPdfCandidate).isEmpty = false := by
          rw [Bool.eq_false_iff]
          intro hco
          refine hle ?_
          rw [hl, List.isEmpty_iff, List.map_eq_nil_iff]
          exact List.isEmpty_iff.mp hco
        rw [hmo]
        simp [hfe, List.length_map]

/-- Counterexample to C5 as stated: one part of content type
`application/octet-stream` with a disposition header and a `.pdf` filename
is extracted as a PdfCandidate (so one candidate, no merge — the claim
demands exactly 1 attachment), yet the composed message has 0 attachments:
the attachment loop keys on the `application/pdf` content type instead of
the extraction predicate. -/
theorem relay_attachment_count_counterexample :
    (extract_pdf_attachments [exampleOctetB]).map List.length = some 1 ∧
      (merge_outcome ("invoice".toList) false [exampleOctetB]).join.isSome =
        false ∧
      (relay_email ("invoice".toList) false [exampleOctetB]).map
        (fun o => o.attachments.length) = some 0 :=
  ⟨by decide, by decide, by decide⟩

/-- Witness for the amended C5 at a concrete two-part message whose merge
succeeds: exactly one attachment. -/
theorem relay_attachment_count_witness :
    (∀ p ∈ [examplePdfA, examplePdfC], p.payload.isSome) ∧
      (∃ out, relay_email ([] : Filename) false [examplePdfA, examplePdfC] =
          some out ∧
        out.attachments.length =
          (if (merge_outcome ([] : Filename) false
              [examplePdfA, examplePdfC]).join.isSome then 1
           else if ([examplePdfA, examplePdfC].filter
              isPdfCandidate).isEmpty then 0
           else ([examplePdfA, examplePdfC].filter isAppPdf).length)) :=
  ⟨by decide, relay_attachment_count ([] : Filename) false _ (by decide)⟩

/-- CLAIM C6 — evaluation at the failing input. For a message whose first
body part is nonempty `text/html` and whose second is `text/plain`, the
composed body equals the `text/plain` content (`hello`) and scanning
stopped there, but the body part is marked `html`: line 308 set
`body_type = 'html'` and the `text/plain` branch (lines 303-305) breaks
without resetting it, so line 312 builds `MIMEText(plain_text, 'html')`.
In the opposite order the body is marked `plain` as the claim states. -/
theorem relay_body_marked_html_bug :
    extract_body [exampleHtml, examplePlain] =
        some ("hello".toList, "html".toList) ∧
      relay_email ("invoice".toList) false [exampleHtml, examplePlain] =
        some ⟨[], some ("hello".toList, "html".toList)⟩ ∧
      extract_body [examplePlain, exampleHtml] =
        some ("hello".toList, "plain".toList) :=
  ⟨by decide, by decide, by decide⟩

/-- A decode failure of any qualifying candidate part makes the whole
extraction loop raise. -/
theorem extract_pdf_attachments_fail :
    ∀ (parts : List Part) (p : Part), p ∈ parts → isPdfCandidate p = true →
      p.payload = none → extract_pdf_attachments parts = none
  | [], p, hp, _, _ => absurd hp (List.not_mem_nil p)
  | q :: rest, p, hp, hcand, hfail => by
    unfold extract_pdf_attachments
    rcases List.mem_cons.mp hp with rfl | hp'
    · rw [if_pos hcand, hfail]
    · by_cases hq : isPdfCandidate q = true
      · rw [if_pos hq]
        cases hpay : q.payload with
        | none => rfl
        | some b =>
          rw [extract_pdf_attachments_fail rest p hp' hcand hfail]
          rfl
      · rw [if_neg hq]
        exact extract_pdf_attachments_fail rest p hp' hcand hfail

/-- CLAIM C7 (amended) — a payload decode failure for any qualifying
attachment part is fatal to that message, not only to that part: there is
no per-part handler, so the exception propagates out of the extraction loop
to the per-message `except` (lines 352-354); the message is skipped
(`relay_email` returns `none`) and is not relayed. Containment is at
message level: only the batch continues. -/
theorem relay_decode_failure_skips_message (invoice_string : Filename)
    (libFail : Bool) (parts : List Part) (p : Part) (hp : p ∈ parts)
    (hcand : isPdfCandidate p = true) (hfail : p.payload = none) :
    relay_email invoice_string libFail parts = none := by
  rw [relay_email, extract_pdf_attachments_fail parts p hp hcand hfail]
  rfl

/-- Counterexample to C7 as stated: a two-candidate message whose first
candidate fails to decode is not relayed at all (`relay_email` is `none`),
where the claim requires the part to be skipped and the message still
relayed. -/
theorem relay_decode_failure_counterexample :
    isPdfCandidate examplePdfFail = true ∧
      examplePdfFail.payload = none ∧
      extract_pdf_attachments [examplePdfFail, examplePdfA] = none ∧
      relay_email ("invoice".toList) false [examplePdfFail, examplePdfA] =
        none :=
  ⟨by decide, by decide, by decide, by decide⟩

/-- Witness for the amended C7 at the same concrete message. -/
theorem relay_decode_failure_skips_message_witness :
    (examplePdfFail ∈ [examplePdfFail, examplePdfA] ∧
        isPdfCandidate examplePdfFail = true ∧
        examplePdfFail.payload = none) ∧
      relay_email ("x".toList) false [examplePdfFail, examplePdfA] = none :=
  ⟨⟨by decide, by decide, by decide⟩,
    relay_decode_failure_skips_message ("x".toList) false _ examplePdfFail
      (by decide) (by decide) (by decide)⟩

/-- CLAIM C8 (amended) — when merge execution raises (the `PdfMerger`
failure is caught inside `merge_pdfs` at lines 180-182 and turned into
`None`, modelled by `libFail = true`), the plan is discarded
(`merge_outcome` is `some none`) and the orchestrator attaches every part
of content type `application/pdf` individually under its declared filename
(or the default literal) — which can omit extracted candidates of other
content types — and the message is still relayed. -/
theorem relay_merge_failure_fallback (invoice_string : Filename)
    (parts : List Part) (hAll : ∀ p ∈ parts, p.payload.isSome)
    (hMany : 1 < (parts.filter isPdfCandidate).length) :
    merge_outcome invoice_string true parts = some none ∧
    ∃ out, relay_email invoice_string true parts = some out ∧
      out.attachments = (parts.filter isAppPdf).map (fun p =>
        ((if pyTruthy p.filename then p.filename
          else default_attachment_name), p.payload.getD [])) := by
  have hext := extract_pdf_attachments_total parts hAll
  set l := (parts.filter isPdfCandidate).map (fun p => p.payload.getD []) with hl
  have hmat := materialize_sources_total parts hAll
  have hind := individual_attachments_total parts hAll
  obtain ⟨bb, hbb⟩ := Option.isSome_iff_exists.mp
    (body_scan_total parts [] ("plain".toList) hAll)
  have hlen : 1 < l.length := by
    rw [hl, List.length_map]; exact hMany
  have hm : merged_result invoice_string true parts l = some none := by
    unfold merged_result
    rw [if_pos hlen, hmat]
    rfl
  have hle : ¬ (l.isEmpty = true) := by
    intro hco
    rw [List.isEmpty_iff.mp hco] at hlen
    exact absurd hlen (by decide)
  refine ⟨?_, ⟨(parts.filter isAppPdf).map (fun p =>
      ((if pyTruthy p.filename then p.filename
        else default_attachment_name), p.payload.getD [])),
      if bb.1.isEmpty then none else some bb⟩, ?_, rfl⟩
  · unfold merge_outcome
    rw [hext, Option.some_bind, hm]
  · rw [relay_email, hext, Option.some_bind, hm, Option.some_bind,
      if_neg hle, hind, Option.some_bind, extract_body, hbb,
      Option.some_bind]

/-- Counterexample to C8 as stated: a failing merge over a message with
three extracted candidates (`a.pdf`, `b.pdf`, `c.pdf`) falls back to
attaching only the two `application/pdf` parts (`a.pdf`, `c.pdf`): the
candidate `b.pdf` (`application/octet-stream`) is not attached, so not
every candidate is attached under its original filename. -/
theorem relay_merge_failure_counterexample :
    (([examplePdfA, exampleOctetB, examplePdfC].filter
        isPdfCandidate).map Part.filename =
      [("a.pdf".toList), ("b.pdf".toList), ("c.pdf".toList)]) ∧
      merge_outcome ("inv".toList) true
        [examplePdfA, exampleOctetB, examplePdfC] = some none ∧
      relay_email ("inv".toList) true
          [examplePdfA, exampleOctetB, examplePdfC] =
        some ⟨[(("a.pdf".toList), [1]), (("c.pdf".toList), [3])], none⟩ :=
  ⟨by decide, by decide, by decide⟩

/-- Witness for the amended C8 at the same concrete message. -/
theorem relay_merge_failure_fallback_witness :
    ((∀ p ∈ [examplePdfA, exampleOctetB, examplePdfC], p.payload.isSome) ∧
        1 < ([examplePdfA, exampleOctetB, examplePdfC].filter
          isPdfCandidate).length) ∧
      (merge_outcome ("inv".toList) true
          [examplePdfA, exampleOctetB, examplePdfC] = some none ∧
        ∃ out, relay_email ("inv".toList) true
            [examplePdfA, exampleOctetB, examplePdfC] = some out ∧
          out.attachments = ([examplePdfA, exampleOctetB,
              examplePdfC].filter isAppPdf).map (fun p =>
            ((if pyTruthy p.filename then p.filename
              else default_attachment_name), p.payload.getD []))) :=
  ⟨⟨by decide, by decide⟩,
    relay_merge_failure_fallback ("inv".toList) _ (by decide) (by decide)⟩

end EmailRelay
